import Mathlib

/-!
# HD44780 character display driver over an I2C backpack

A shallow embedding of `driver.go` (package `character`).

* `uint8` values are natural numbers; every operation that can leave the byte
  range in Go (`<<`, `+=`, the conversion `uint8(c)`) is reduced `% 256`.
* `time.Duration` values are natural numbers of nanoseconds.
* A method with receiver `d *Display` is a computation in `StateM Display`.
* The I2C device is the external bus sink.  It is modelled by the log of what
  the driver did to it (every `Write` handed to it, successful or not, and
  every `time.Sleep` taken in between, in chronological order) together with
  the rule saying which of its writes fail.
-/

namespace Character

/-! ## Constants -/

def I2CRSOn : Nat := 0b00000001
def I2CRWOn : Nat := 0b00000010
def I2CENOn : Nat := 0b00000100
def I2CBLOn : Nat := 0b00001000

def InstructionClearDisplay : Nat := 0b00000001
def InstructionReturnHome : Nat := 0b00000010

def InstructionEntryModeSet : Nat := 0b00000100
def InstructionEntryModeSetIncrement : Nat := 0b00000010

def InstructionDisplayOnOffControl : Nat := 0b00001000
def InstructionDisplayOnOffControlDisplayOn : Nat := 0b00000100
def InstructionDisplayOnOffControlCursorOn : Nat := 0b00000010
def InstructionDisplayOnOffControlBlinkingOn : Nat := 0b00000001

def InstructionCursorOrDisplayShift : Nat := 0b00010000
def InstructionCursorOrDisplayShiftCursorLeft : Nat := 0b00000000
def InstructionCursorOrDisplayShiftCursorRight : Nat := 0b00000100
def InstructionCursorOrDisplayShiftDisplayLeft : Nat := 0b00001000
def InstructionCursorOrDisplayShiftDisplayRight : Nat := 0b00001100

def InstructionFunctionSet : Nat := 0b00100000
def InstructionFunctionSetDL8Bit : Nat := 0b00010000
def InstructionFunctionSetNNLines : Nat := 0b00001000
def InstructionFunctionSetF5x10 : Nat := 0b00000100

def InstructionSetDDRAMAddress : Nat := 0b10000000

def InstructionSetCGRAMAddress : Nat := 0b01000000

def lowerMask : Nat := 0b11110000

/-- One microsecond, `time.Microsecond`, in nanoseconds. -/
def Microsecond : Nat := 1000

/-- One millisecond, `time.Millisecond`, in nanoseconds. -/
def Millisecond : Nat := 1000 * Microsecond

/-! ## The bus sink and the display handle -/

/-- What the driver does to the outside world, one entry per call. -/
inductive Event where
  /-- The call `d.Dev.Write([]byte{b})`: one byte handed to the bus sink. -/
  | write (b : Nat)
  /-- The call `time.Sleep(ns)`. -/
  | sleep (ns : Nat)
  deriving DecidableEq, Repr

/-- The error value a failing bus write returns. -/
inductive BusError where
  | writeFailed
  deriving DecidableEq, Repr

/-- The bytes handed to the bus sink, in order, sleeps dropped. -/
def busWrites : List Event → List Nat
  | [] => []
  | Event.write b :: es => b :: busWrites es
  | Event.sleep _ :: es => busWrites es

/-- The I2C device `*i2c.Dev`: `fails k` says whether the write number `k`
(counting from 0 over the life of the device) returns an error, `events` is
the log of writes attempted on it and sleeps taken so far. -/
structure Dev where
  fails : Nat → Bool
  events : List Event

/-- The display handle `Display`. -/
structure Display where
  Dev : Dev
  backlight : Nat

/-- The call `dev.Write([]byte{b})`.  The byte is handed to the sink whether or
not the sink then reports a failure; the result is the error, if any. -/
def Dev.Write (dev : Dev) (b : Nat) : Option BusError × Dev :=
  (if dev.fails (busWrites dev.events).length then some BusError.writeFailed else none,
   { dev with events := dev.events ++ [Event.write b] })

/-- The call `d.Dev.Write([]byte{b})` from inside a method of `Display`. -/
def devWrite (b : Nat) : StateM Display (Option BusError) :=
  fun d => ((d.Dev.Write b).1, { d with Dev := (d.Dev.Write b).2 })

/-- The call `time.Sleep(ns)`. -/
def Sleep (ns : Nat) : StateM Display Unit :=
  fun d => ((), { d with Dev := { d.Dev with events := d.Dev.events ++ [Event.sleep ns] } })

/-- The Go operator `a &^ b` on `uint8`: the bits of `a` that are not in `b`. -/
def andNot (a b : Nat) : Nat := a &&& (0xFF ^^^ b)

/-! ## The driver -/

/-- The method `write`: one enable pulse.  Both results of `Dev.Write` are
dropped, as in the source. -/
def Display.write (data : Nat) : StateM Display Unit := do
  -- Write with enabled flag.
  let _ ← devWrite (data ||| I2CENOn ||| (← get).backlight)
  Sleep (Microsecond * 500)
  -- Switch off.
  let _ ← devWrite ((andNot data I2CENOn) ||| (← get).backlight)
  Sleep (Microsecond * 500)

/-- The method `WriteInstruction`. -/
def Display.WriteInstruction (cmd : Nat) : StateM Display Unit := do
  Display.write (cmd &&& lowerMask)
  Display.write (((cmd <<< 4) % 256) &&& lowerMask)

/-- The method `WriteData`. -/
def Display.WriteData (cmd : Nat) : StateM Display Unit := do
  Display.write ((cmd &&& lowerMask) ||| I2CRSOn)
  Display.write ((((cmd <<< 4) % 256) &&& lowerMask) ||| I2CRSOn)

/-- The method `SetBacklight`. -/
def Display.SetBacklight (on' : Bool) : StateM Display Unit := do
  if on' then
    modify fun d => { d with backlight := I2CBLOn }
    return
  modify fun d => { d with backlight := 0 }

/-- The method `Print`.  Ranging over a Go string yields its code points one
by one (`U+FFFD` for a byte that is not valid UTF-8), which is what the
characters of `s` are; `uint8(c)` keeps the low eight bits of the code point. -/
def Display.Print (s : String) : StateM Display Unit := do
  s.toList.forM fun c =>
    --TODO: Check what happens with Japanese characters.
    Display.WriteData (c.toNat % 256)

/-- The method `Goto`. -/
def Display.Goto (row col : Nat) : StateM Display Unit := do
  let mut col := col
  -- Add column offsets.
  match row with
  | 1 => col := (col + 0b01000000) % 256
  | _ => pure ()
  Display.WriteInstruction (InstructionSetDDRAMAddress ||| col)

/-- The method `Clear`. -/
def Display.Clear : StateM Display Unit := do
  Display.WriteInstruction InstructionClearDisplay
  Display.WriteInstruction InstructionReturnHome

/-- The method `DisplayShiftLeft`. -/
def Display.DisplayShiftLeft : StateM Display Unit := do
  Display.WriteInstruction
    (InstructionCursorOrDisplayShift ||| InstructionCursorOrDisplayShiftDisplayLeft)

/-- The method `DisplayShiftRight`. -/
def Display.DisplayShiftRight : StateM Display Unit := do
  Display.WriteInstruction
    (InstructionCursorOrDisplayShift ||| InstructionCursorOrDisplayShiftDisplayRight)

/-- The type `CustomChars`, `[8][8]byte`: entry `chars i j` is `chars[i][j]`. -/
abbrev CustomChars := Fin 8 → Fin 8 → Nat

/-- The method `LoadCustomChars`.  Ranging over an array of length 8 visits the
indices 0 to 7 in order. -/
def Display.LoadCustomChars (chars : CustomChars) : StateM Display Unit := do
  Display.WriteInstruction InstructionSetCGRAMAddress
  (List.finRange 8).forM fun i =>
    (List.finRange 8).forM fun j =>
      Display.WriteData (chars i j)

/-- The body of `NewDisplay` after the handle has been allocated. -/
def Display.bringUp (singleLine : Bool) : StateM Display Unit := do
  -- Initialize 4 bit mode as per Figure 24 of the Hitachi specification.
  Sleep (40 * Millisecond)
  Display.WriteInstruction 0b00000011
  Sleep (5 * Millisecond)
  Display.WriteInstruction 0b00000011
  Sleep (100 * Millisecond)
  Display.WriteInstruction 0b00000011
  -- BF can be checked after the following instruction.
  Display.WriteInstruction 0b00000010
  -- Complete initialization.
  let mut n := 0
  if !singleLine then
    n := InstructionFunctionSetNNLines
  Display.WriteInstruction (InstructionFunctionSet ||| n)
  Display.WriteInstruction
    (InstructionDisplayOnOffControl ||| InstructionDisplayOnOffControlDisplayOn)
  Display.WriteInstruction InstructionClearDisplay
  -- Wait an extra millisecond because clearing the display can take 1.53ms.
  Sleep (Millisecond + (Microsecond * 530))
  Display.WriteInstruction (InstructionEntryModeSet ||| InstructionEntryModeSetIncrement)

/-- The function `NewDisplay`: it returns the handle and nothing else. -/
def NewDisplay (dev : Dev) (singleLine : Bool) : Display :=
  let d : Display := { Dev := dev, backlight := I2CBLOn }
  ((Display.bringUp singleLine).run d).2

/-! ## Observing a call -/

/-- The events a call adds to the log when started in state `d`. -/
def eventsOf (m : StateM Display Unit) (d : Display) : List Event :=
  (m.run d).2.Dev.events.drop d.Dev.events.length

/-- The bytes a call hands to the bus sink when started in state `d`. -/
def writesOf (m : StateM Display Unit) (d : Display) : List Nat :=
  busWrites (eventsOf m d)

/-- The bytes `NewDisplay` hands to the bus sink `dev`. -/
def newDisplayWrites (dev : Dev) (singleLine : Bool) : List Nat :=
  busWrites ((NewDisplay dev singleLine).Dev.events.drop dev.events.length)

/-- The events `NewDisplay` adds to the log of the bus sink `dev`. -/
def newDisplayEvents (dev : Dev) (singleLine : Bool) : List Event :=
  (NewDisplay dev singleLine).Dev.events.drop dev.events.length

/-- For each bus write of a log, in order, the time slept since the bus write
before it, starting from `acc` for the first one. -/
def delaysBeforeFrom (acc : Nat) : List Event → List Nat
  | [] => []
  | Event.sleep ns :: es => delaysBeforeFrom (acc + ns) es
  | Event.write _ :: es => acc :: delaysBeforeFrom 0 es

/-- For each bus write of a log, in order, the time slept since the bus write
before it, or since the start of the log for the first one, in nanoseconds. -/
def delaysBefore (es : List Event) : List Nat :=
  delaysBeforeFrom 0 es

/-- One transmission of the byte `b`: `WriteData` or `WriteInstruction`. -/
def Display.transmit (isData : Bool) (b : Nat) : StateM Display Unit :=
  if isData then Display.WriteData b else Display.WriteInstruction b

/-- The transmitting methods of a display handle, with their arguments. -/
inductive Op where
  | WriteInstruction (cmd : Nat)
  | WriteData (cmd : Nat)
  | Print (s : String)
  | Goto (row col : Nat)
  | Clear
  | DisplayShiftLeft
  | DisplayShiftRight
  | LoadCustomChars (chars : CustomChars)

/-- The call an `Op` stands for. -/
def Op.call : Op → StateM Display Unit
  | Op.WriteInstruction cmd => Display.WriteInstruction cmd
  | Op.WriteData cmd => Display.WriteData cmd
  | Op.Print s => Display.Print s
  | Op.Goto row col => Display.Goto row col
  | Op.Clear => Display.Clear
  | Op.DisplayShiftLeft => Display.DisplayShiftLeft
  | Op.DisplayShiftRight => Display.DisplayShiftRight
  | Op.LoadCustomChars chars => Display.LoadCustomChars chars

/-- Calls made one after the other on the same handle. -/
def Op.callAll (ops : List Op) : StateM Display Unit :=
  ops.forM Op.call

/-- A bus sink on which nothing has happened yet and whose writes all succeed. -/
def Dev.fresh : Dev := { fails := fun _ => false, events := [] }

/-- A bus sink on which nothing has happened yet and whose first write fails. -/
def Dev.failingFirst : Dev := { fails := fun k => k == 0, events := [] }

/-- The state `d` with further events in its log. -/
def Display.logged (d : Display) (es : List Event) : Display :=
  { d with Dev := { d.Dev with events := d.Dev.events ++ es } }

/-! ## The log entries of each call, in closed form

Vocabulary of the proofs only. The `_run` theorems below show, call by call,
that the driver code above appends exactly these entries; the statements of
the numbered properties are about the driver code itself. -/

/-- The backlight byte of a handle whose flag is on or off. -/
def backlightByte (on' : Bool) : Nat := if on' then I2CBLOn else 0

/-- The log entries of one enable pulse sent with backlight byte `bl`. -/
def pulseEvents (bl data : Nat) : List Event :=
  [Event.write (data ||| I2CENOn ||| bl), Event.sleep (Microsecond * 500),
   Event.write (andNot data I2CENOn ||| bl), Event.sleep (Microsecond * 500)]

/-- The log entries of one instruction transmission with backlight byte `bl`. -/
def instructionEvents (bl cmd : Nat) : List Event :=
  pulseEvents bl (cmd &&& lowerMask) ++ pulseEvents bl (((cmd <<< 4) % 256) &&& lowerMask)

/-- The log entries of one data transmission with backlight byte `bl`. -/
def dataEvents (bl cmd : Nat) : List Event :=
  pulseEvents bl ((cmd &&& lowerMask) ||| I2CRSOn)
    ++ pulseEvents bl ((((cmd <<< 4) % 256) &&& lowerMask) ||| I2CRSOn)

/-- The log entries of the call `op`, made with backlight byte `bl`. -/
def Op.events (bl : Nat) : Op → List Event
  | Op.WriteInstruction cmd => instructionEvents bl cmd
  | Op.WriteData cmd => dataEvents bl cmd
  | Op.Print s => s.toList.flatMap fun c => dataEvents bl (c.toNat % 256)
  | Op.Goto row col =>
    instructionEvents bl
      (InstructionSetDDRAMAddress ||| if row = 1 then (col + 0b01000000) % 256 else col)
  | Op.Clear =>
    instructionEvents bl InstructionClearDisplay ++ instructionEvents bl InstructionReturnHome
  | Op.DisplayShiftLeft =>
    instructionEvents bl
      (InstructionCursorOrDisplayShift ||| InstructionCursorOrDisplayShiftDisplayLeft)
  | Op.DisplayShiftRight =>
    instructionEvents bl
      (InstructionCursorOrDisplayShift ||| InstructionCursorOrDisplayShiftDisplayRight)
  | Op.LoadCustomChars chars =>
    instructionEvents bl InstructionSetCGRAMAddress
      ++ (List.finRange 8).flatMap fun i =>
          (List.finRange 8).flatMap fun j => dataEvents bl (chars i j)

/-- The log entries of the bring-up sequence of `NewDisplay`. -/
def bringUpEvents (bl : Nat) (singleLine : Bool) : List Event :=
  [Event.sleep (40 * Millisecond)] ++ instructionEvents bl 0b00000011
    ++ [Event.sleep (5 * Millisecond)] ++ instructionEvents bl 0b00000011
    ++ [Event.sleep (100 * Millisecond)] ++ instructionEvents bl 0b00000011
    ++ instructionEvents bl 0b00000010
    ++ instructionEvents bl
        (InstructionFunctionSet ||| if singleLine then 0 else InstructionFunctionSetNNLines)
    ++ instructionEvents bl
        (InstructionDisplayOnOffControl ||| InstructionDisplayOnOffControlDisplayOn)
    ++ instructionEvents bl InstructionClearDisplay
    ++ [Event.sleep (Millisecond + (Microsecond * 530))]
    ++ instructionEvents bl (InstructionEntryModeSet ||| InstructionEntryModeSetIncrement)


/-! ## How the calls act on the log -/

section Runs

open Display

theorem busWrites_append (xs ys : List Event) :
    busWrites (xs ++ ys) = busWrites xs ++ busWrites ys := by
  induction xs with
  | nil => rfl
  | cons e es ih => cases e <;> simp [busWrites, ih]

theorem logged_nil (d : Display) : d.logged [] = d := by
  simp [Display.logged]

theorem logged_logged (d : Display) (xs ys : List Event) :
    (d.logged xs).logged ys = d.logged (xs ++ ys) := by
  simp [Display.logged, List.append_assoc]

theorem logged_backlight (d : Display) (xs : List Event) :
    (d.logged xs).backlight = d.backlight := rfl

theorem logged_events (d : Display) (xs : List Event) :
    (d.logged xs).Dev.events = d.Dev.events ++ xs := rfl

theorem logged_fails (d : Display) (xs : List Event) :
    (d.logged xs).Dev.fails = d.Dev.fails := rfl

theorem write_run (data : Nat) (d : Display) :
    (Display.write data).run d = ((), d.logged (pulseEvents d.backlight data)) := by
  simp [Display.write, devWrite, Sleep, Dev.Write, StateT.run, bind, StateT.bind, get, getThe,
    MonadStateOf.get, StateT.get, pure, Display.logged, pulseEvents]

theorem seq_run (m k : StateM Display Unit) (d : Display) (xs : List Event)
    (ys : Nat → List Event)
    (hm : m.run d = ((), d.logged xs))
    (hk : ∀ e : Display, k.run e = ((), e.logged (ys e.backlight))) :
    (do m; k : StateM Display Unit).run d = ((), d.logged (xs ++ ys d.backlight)) := by
  have h : (do m; k : StateM Display Unit).run d = k.run (m.run d).2 := rfl
  rw [h, hm, hk, logged_logged, logged_backlight]

theorem WriteInstruction_run (cmd : Nat) (d : Display) :
    (WriteInstruction cmd).run d = ((), d.logged (instructionEvents d.backlight cmd)) := by
  unfold WriteInstruction instructionEvents
  exact seq_run _ _ d _ (fun bl => pulseEvents bl (((cmd <<< 4) % 256) &&& lowerMask))
    (write_run _ d) (fun e => write_run _ e)

theorem WriteData_run (cmd : Nat) (d : Display) :
    (WriteData cmd).run d = ((), d.logged (dataEvents d.backlight cmd)) := by
  unfold WriteData dataEvents
  exact seq_run _ _ d _
    (fun bl => pulseEvents bl ((((cmd <<< 4) % 256) &&& lowerMask) ||| I2CRSOn))
    (write_run _ d) (fun e => write_run _ e)

theorem SetBacklight_run (b : Bool) (d : Display) :
    (SetBacklight b).run d = ((), { d with backlight := if b then I2CBLOn else 0 }) := by
  cases b <;> rfl

theorem forM_run {α : Type} (f : α → StateM Display Unit) (g : Nat → α → List Event)
    (hf : ∀ (x : α) (e : Display), (f x).run e = ((), e.logged (g e.backlight x)))
    (l : List α) (d : Display) :
    (l.forM f).run d = ((), d.logged (l.flatMap (g d.backlight))) := by
  induction l generalizing d with
  | nil => simp [List.forM, logged_nil, StateT.run, pure, StateT.pure]
  | cons x xs ih =>
    have h : ((x :: xs).forM f).run d = (xs.forM f).run ((f x).run d).2 := rfl
    rw [h, hf, ih, logged_logged, logged_backlight]
    simp [List.flatMap_cons]

theorem Print_run (s : String) (d : Display) :
    (Print s).run d
      = ((), d.logged (s.toList.flatMap fun c => dataEvents d.backlight (c.toNat % 256))) := by
  have h := forM_run (fun c : Char => WriteData (c.toNat % 256))
    (fun bl c => dataEvents bl (c.toNat % 256)) (fun c e => WriteData_run _ e) s.toList d
  exact h

theorem Goto_run (row col : Nat) (d : Display) :
    (Goto row col).run d = ((), d.logged (instructionEvents d.backlight
      (InstructionSetDDRAMAddress ||| if row = 1 then (col + 0b01000000) % 256 else col))) := by
  by_cases h : row = 1
  · subst h
    simpa using WriteInstruction_run _ d
  · rw [if_neg h]
    have : Goto row col = WriteInstruction (InstructionSetDDRAMAddress ||| col) := by
      unfold Goto
      split
      · exact absurd rfl h
      · rfl
    rw [this]
    exact WriteInstruction_run _ d

theorem Clear_run (d : Display) :
    Clear.run d = ((), d.logged (instructionEvents d.backlight InstructionClearDisplay
      ++ instructionEvents d.backlight InstructionReturnHome)) := by
  unfold Clear
  exact seq_run _ _ d _ (fun bl => instructionEvents bl InstructionReturnHome)
    (WriteInstruction_run _ d) (fun e => WriteInstruction_run _ e)

theorem DisplayShiftLeft_run (d : Display) :
    DisplayShiftLeft.run d = ((), d.logged (instructionEvents d.backlight
      (InstructionCursorOrDisplayShift ||| InstructionCursorOrDisplayShiftDisplayLeft))) :=
  WriteInstruction_run _ d

theorem DisplayShiftRight_run (d : Display) :
    DisplayShiftRight.run d = ((), d.logged (instructionEvents d.backlight
      (InstructionCursorOrDisplayShift ||| InstructionCursorOrDisplayShiftDisplayRight))) :=
  WriteInstruction_run _ d

theorem LoadCustomChars_run (chars : CustomChars) (d : Display) :
    (LoadCustomChars chars).run d
      = ((), d.logged (instructionEvents d.backlight InstructionSetCGRAMAddress
          ++ (List.finRange 8).flatMap fun i =>
              (List.finRange 8).flatMap fun j => dataEvents d.backlight (chars i j))) := by
  unfold LoadCustomChars
  refine seq_run _ _ d _ (fun bl => (List.finRange 8).flatMap fun i =>
    (List.finRange 8).flatMap fun j => dataEvents bl (chars i j)) (WriteInstruction_run _ d) ?_
  intro e
  have hrow : ∀ (i : Fin 8) (e' : Display),
      ((List.finRange 8).forM fun j => WriteData (chars i j)).run e'
        = ((), e'.logged ((List.finRange 8).flatMap fun j => dataEvents e'.backlight (chars i j))) :=
    fun i e' => forM_run (fun j : Fin 8 => WriteData (chars i j))
      (fun bl j => dataEvents bl (chars i j)) (fun j e'' => WriteData_run _ e'') _ e'
  exact forM_run (fun i : Fin 8 => (List.finRange 8).forM fun j => WriteData (chars i j))
    (fun bl i => (List.finRange 8).flatMap fun j => dataEvents bl (chars i j)) hrow _ e

theorem Sleep_run (ns : Nat) (d : Display) :
    (Sleep ns).run d = ((), d.logged [Event.sleep ns]) := rfl

theorem bringUp_run (singleLine : Bool) (d : Display) :
    (Display.bringUp singleLine).run d = ((), d.logged (bringUpEvents d.backlight singleLine)) := by
  cases singleLine <;>
    simp [Display.bringUp, StateT.run_bind, WriteInstruction_run, Sleep_run, logged_logged,
      logged_backlight, bringUpEvents]

theorem NewDisplay_eq (dev : Dev) (singleLine : Bool) :
    NewDisplay dev singleLine
      = { Dev := { dev with events := dev.events ++ bringUpEvents I2CBLOn singleLine },
          backlight := I2CBLOn } := by
  unfold NewDisplay
  simp only [bringUp_run]
  rfl

/-! ## Byte arithmetic -/

theorem land_lowerMask_mod (b : Nat) : b &&& lowerMask = (b % 256) &&& lowerMask := by
  apply Nat.eq_of_testBit_eq
  intro i
  have h256 : (256 : Nat) = 2 ^ 8 := by norm_num
  rw [Nat.testBit_and, Nat.testBit_and, h256, Nat.testBit_mod_two_pow]
  by_cases h : i < 8
  · simp [h]
  · have hm : Nat.testBit lowerMask i = false := by
      apply Nat.testBit_lt_two_pow
      calc lowerMask < 2 ^ 8 := by decide
        _ ≤ 2 ^ i := Nat.pow_le_pow_right (by decide) (by omega)
    simp [hm]

set_option maxRecDepth 1000000 in
theorem nibble_facts : ∀ x < 256, ∀ on' : Bool,
    andNot (x &&& lowerMask) I2CENOn = x &&& lowerMask
    ∧ andNot ((x &&& lowerMask) ||| I2CRSOn) I2CENOn = (x &&& lowerMask) ||| I2CRSOn
    ∧ ((x &&& lowerMask) ||| I2CENOn ||| backlightByte on') &&& I2CRSOn = 0
    ∧ ((x &&& lowerMask) ||| backlightByte on') &&& I2CRSOn = 0
    ∧ ((x &&& lowerMask) ||| I2CRSOn) ||| I2CENOn ||| backlightByte on'
        = ((x &&& lowerMask) ||| I2CENOn ||| backlightByte on') ||| I2CRSOn
    ∧ ((x &&& lowerMask) ||| I2CRSOn) ||| backlightByte on'
        = ((x &&& lowerMask) ||| backlightByte on') ||| I2CRSOn
    ∧ (((x &&& lowerMask) ||| I2CENOn ||| backlightByte on') ||| I2CRSOn) &&& I2CRSOn = I2CRSOn
    ∧ (((x &&& lowerMask) ||| backlightByte on') ||| I2CRSOn) &&& I2CRSOn = I2CRSOn
    ∧ ((x &&& lowerMask) ||| I2CENOn ||| backlightByte on') &&& I2CBLOn = backlightByte on'
    ∧ ((x &&& lowerMask) ||| backlightByte on') &&& I2CBLOn = backlightByte on'
    ∧ (((x &&& lowerMask) ||| I2CENOn ||| backlightByte on') ||| I2CRSOn) &&& I2CBLOn
        = backlightByte on'
    ∧ (((x &&& lowerMask) ||| backlightByte on') ||| I2CRSOn) &&& I2CBLOn = backlightByte on' := by
  decide

theorem SetBacklight_state (on' : Bool) (d : Display) :
    ((SetBacklight on').run d).2 = { d with backlight := backlightByte on' } := by
  rw [SetBacklight_run]; rfl

theorem eventsOf_of_run {m : StateM Display Unit} {d : Display} {es : List Event}
    (h : m.run d = ((), d.logged es)) : eventsOf m d = es := by
  simp [eventsOf, h, logged_events]

theorem writesOf_of_run {m : StateM Display Unit} {d : Display} {es : List Event}
    (h : m.run d = ((), d.logged es)) : writesOf m d = busWrites es := by
  rw [writesOf, eventsOf_of_run h]

/-- The four bus writes of an instruction transmission, the enable pulse written out. -/
theorem busWrites_instructionEvents (on' : Bool) (cmd : Nat) :
    busWrites (instructionEvents (backlightByte on') cmd)
      = [(cmd &&& lowerMask) ||| I2CENOn ||| backlightByte on',
         (cmd &&& lowerMask) ||| backlightByte on',
         (((cmd <<< 4) % 256) &&& lowerMask) ||| I2CENOn ||| backlightByte on',
         (((cmd <<< 4) % 256) &&& lowerMask) ||| backlightByte on'] := by
  have h1 := (nibble_facts (cmd % 256) (Nat.mod_lt _ (by decide)) on').1
  have h2 := (nibble_facts ((cmd <<< 4) % 256) (Nat.mod_lt _ (by decide)) on').1
  rw [← land_lowerMask_mod] at h1
  simp [instructionEvents, pulseEvents, busWrites, h1, h2]

/-- The four bus writes of a data transmission, the enable pulse written out. -/
theorem busWrites_dataEvents (on' : Bool) (cmd : Nat) :
    busWrites (dataEvents (backlightByte on') cmd)
      = [((cmd &&& lowerMask) ||| I2CENOn ||| backlightByte on') ||| I2CRSOn,
         ((cmd &&& lowerMask) ||| backlightByte on') ||| I2CRSOn,
         ((((cmd <<< 4) % 256) &&& lowerMask) ||| I2CENOn ||| backlightByte on') ||| I2CRSOn,
         ((((cmd <<< 4) % 256) &&& lowerMask) ||| backlightByte on') ||| I2CRSOn] := by
  have h1 := nibble_facts (cmd % 256) (Nat.mod_lt _ (by decide)) on'
  have h2 := nibble_facts ((cmd <<< 4) % 256) (Nat.mod_lt _ (by decide)) on'
  rw [← land_lowerMask_mod] at h1
  simp only [dataEvents, pulseEvents, busWrites, List.cons_append, List.nil_append,
    h1.2.1, h2.2.1, h1.2.2.2.2.1, h2.2.2.2.2.1, h1.2.2.2.2.2.1, h2.2.2.2.2.2.1]

/-! ## The claims -/

/-- C1: for every byte `b` and either backlight state (the handle as
`SetBacklight(on)` leaves it), `WriteInstruction(b)` extends the log of bus
writes by exactly four bytes, in this order: `(b & 0xF0) | EN | BL`,
`(b & 0xF0) | BL`, `((b << 4) & 0xF0) | EN | BL`, `((b << 4) & 0xF0) | BL`,
with `EN = 0x04` and `BL = 0x08` for backlight on, `0` for off (`b << 4` being
the `uint8` shift, reduced modulo 256); bit `0x01` is clear in all four. -/
theorem C1_WriteInstruction_bus_writes (b : Nat) (on' : Bool) (d : Display) :
    let BL := if on' then 0x08 else 0
    let d1 := ((SetBacklight on').run d).2
    let ws := [(b &&& 0xF0) ||| 0x04 ||| BL, (b &&& 0xF0) ||| BL,
      (((b <<< 4) % 256) &&& 0xF0) ||| 0x04 ||| BL, (((b <<< 4) % 256) &&& 0xF0) ||| BL]
    busWrites ((WriteInstruction b).run d1).2.Dev.events = busWrites d.Dev.events ++ ws
    ∧ ∀ w ∈ ws, w &&& 0x01 = 0 := by
  intro BL d1 ws
  have hBL : BL = backlightByte on' := rfl
  have hd1 : d1 = { d with backlight := backlightByte on' } := SetBacklight_state on' d
  have hws : ws = busWrites (instructionEvents (backlightByte on') b) := by
    rw [busWrites_instructionEvents]; rfl
  constructor
  · rw [WriteInstruction_run, logged_events, busWrites_append, hws, hd1]
  · have h1 := nibble_facts (b % 256) (Nat.mod_lt _ (by decide)) on'
    have h2 := nibble_facts ((b <<< 4) % 256) (Nat.mod_lt _ (by decide)) on'
    rw [← land_lowerMask_mod] at h1
    intro w hw
    simp only [ws, List.mem_cons, List.mem_singleton, List.not_mem_nil, or_false] at hw
    rcases hw with rfl | rfl | rfl | rfl
    · exact h1.2.2.1
    · exact h1.2.2.2.1
    · exact h2.2.2.1
    · exact h2.2.2.2.1

/-- C2: for every byte `b` and either backlight state, `WriteData(b)` emits
exactly four bus writes, the i-th being the i-th bus write of
`WriteInstruction(b)` in the same state with the register-select bit `0x01`
set in addition: every byte of the data transmission has bit 0 set, every byte
of the instruction transmission has it clear, and the log of bus writes grows
by these four bytes and nothing else. -/
theorem C2_WriteData_sets_register_select (b : Nat) (on' : Bool) (d : Display) :
    let d1 := ((SetBacklight on').run d).2
    writesOf (WriteData b) d1 = (writesOf (WriteInstruction b) d1).map (fun w => w ||| 0x01)
    ∧ (writesOf (WriteData b) d1).length = 4
    ∧ (writesOf (WriteInstruction b) d1).length = 4
    ∧ (∀ w ∈ writesOf (WriteData b) d1, w &&& 0x01 = 0x01)
    ∧ (∀ w ∈ writesOf (WriteInstruction b) d1, w &&& 0x01 = 0)
    ∧ busWrites ((WriteData b).run d1).2.Dev.events
        = busWrites d1.Dev.events ++ writesOf (WriteData b) d1 := by
  intro d1
  have hd1 : d1.backlight = backlightByte on' := by
    show ((SetBacklight on').run d).2.backlight = _
    rw [SetBacklight_state]
  have hD : writesOf (WriteData b) d1 = busWrites (dataEvents (backlightByte on') b) := by
    rw [writesOf_of_run (WriteData_run b d1), hd1]
  have hI : writesOf (WriteInstruction b) d1
      = busWrites (instructionEvents (backlightByte on') b) := by
    rw [writesOf_of_run (WriteInstruction_run b d1), hd1]
  have h1 := nibble_facts (b % 256) (Nat.mod_lt _ (by decide)) on'
  have h2 := nibble_facts ((b <<< 4) % 256) (Nat.mod_lt _ (by decide)) on'
  rw [← land_lowerMask_mod] at h1
  refine ⟨?_, ?_, ?_, ?_, ?_, ?_⟩
  · rw [hD, hI, busWrites_dataEvents, busWrites_instructionEvents]; rfl
  · rw [hD, busWrites_dataEvents]; rfl
  · rw [hI, busWrites_instructionEvents]; rfl
  · rw [hD, busWrites_dataEvents]
    intro w hw
    simp only [List.mem_cons, List.mem_singleton, List.not_mem_nil, or_false] at hw
    rcases hw with rfl | rfl | rfl | rfl
    · exact h1.2.2.2.2.2.2.1
    · exact h1.2.2.2.2.2.2.2.1
    · exact h2.2.2.2.2.2.2.1
    · exact h2.2.2.2.2.2.2.2.1
  · rw [hI, busWrites_instructionEvents]
    intro w hw
    simp only [List.mem_cons, List.mem_singleton, List.not_mem_nil, or_false] at hw
    rcases hw with rfl | rfl | rfl | rfl
    · exact h1.2.2.1
    · exact h1.2.2.2.1
    · exact h2.2.2.1
    · exact h2.2.2.2.1
  · rw [WriteData_run, logged_events, busWrites_append, hD, hd1]

theorem Op_run (op : Op) (d : Display) :
    op.call.run d = ((), d.logged (op.events d.backlight)) := by
  cases op with
  | WriteInstruction cmd => exact WriteInstruction_run cmd d
  | WriteData cmd => exact WriteData_run cmd d
  | Print s => exact Print_run s d
  | Goto row col => exact Goto_run row col d
  | Clear => exact Clear_run d
  | DisplayShiftLeft => exact DisplayShiftLeft_run d
  | DisplayShiftRight => exact DisplayShiftRight_run d
  | LoadCustomChars chars => exact LoadCustomChars_run chars d

theorem callAll_run (ops : List Op) (d : Display) :
    (Op.callAll ops).run d = ((), d.logged (ops.flatMap (Op.events d.backlight))) :=
  forM_run Op.call Op.events Op_run ops d

theorem busWrites_flatMap_forall {α : Type} (P : Nat → Prop) (f : α → List Event)
    (hf : ∀ x, ∀ w ∈ busWrites (f x), P w) (l : List α) :
    ∀ w ∈ busWrites (l.flatMap f), P w := by
  induction l with
  | nil => intro w hw; simp [busWrites] at hw
  | cons x xs ih =>
    intro w hw
    rw [List.flatMap_cons, busWrites_append, List.mem_append] at hw
    rcases hw with h | h
    · exact hf x w h
    · exact ih w h

theorem busWrites_append_forall (P : Nat → Prop) (xs ys : List Event)
    (hx : ∀ w ∈ busWrites xs, P w) (hy : ∀ w ∈ busWrites ys, P w) :
    ∀ w ∈ busWrites (xs ++ ys), P w := by
  intro w hw
  rw [busWrites_append, List.mem_append] at hw
  rcases hw with h | h
  · exact hx w h
  · exact hy w h

theorem instructionEvents_backlight_bit (on' : Bool) (cmd : Nat) :
    ∀ w ∈ busWrites (instructionEvents (backlightByte on') cmd),
      w &&& I2CBLOn = backlightByte on' := by
  have h1 := nibble_facts (cmd % 256) (Nat.mod_lt _ (by decide)) on'
  have h2 := nibble_facts ((cmd <<< 4) % 256) (Nat.mod_lt _ (by decide)) on'
  rw [← land_lowerMask_mod] at h1
  rw [busWrites_instructionEvents]
  intro w hw
  simp only [List.mem_cons, List.mem_singleton, List.not_mem_nil, or_false] at hw
  rcases hw with rfl | rfl | rfl | rfl
  · exact h1.2.2.2.2.2.2.2.2.1
  · exact h1.2.2.2.2.2.2.2.2.2.1
  · exact h2.2.2.2.2.2.2.2.2.1
  · exact h2.2.2.2.2.2.2.2.2.2.1

theorem dataEvents_backlight_bit (on' : Bool) (cmd : Nat) :
    ∀ w ∈ busWrites (dataEvents (backlightByte on') cmd),
      w &&& I2CBLOn = backlightByte on' := by
  have h1 := nibble_facts (cmd % 256) (Nat.mod_lt _ (by decide)) on'
  have h2 := nibble_facts ((cmd <<< 4) % 256) (Nat.mod_lt _ (by decide)) on'
  rw [← land_lowerMask_mod] at h1
  rw [busWrites_dataEvents]
  intro w hw
  simp only [List.mem_cons, List.mem_singleton, List.not_mem_nil, or_false] at hw
  rcases hw with rfl | rfl | rfl | rfl
  · exact h1.2.2.2.2.2.2.2.2.2.2.1
  · exact h1.2.2.2.2.2.2.2.2.2.2.2
  · exact h2.2.2.2.2.2.2.2.2.2.2.1
  · exact h2.2.2.2.2.2.2.2.2.2.2.2

theorem Op_events_backlight_bit (on' : Bool) (op : Op) :
    ∀ w ∈ busWrites (op.events (backlightByte on')), w &&& I2CBLOn = backlightByte on' := by
  cases op with
  | WriteInstruction cmd => exact instructionEvents_backlight_bit on' cmd
  | WriteData cmd => exact dataEvents_backlight_bit on' cmd
  | Print s =>
    exact busWrites_flatMap_forall _ _ (fun c => dataEvents_backlight_bit on' _) _
  | Goto row col => exact instructionEvents_backlight_bit on' _
  | Clear =>
    exact busWrites_append_forall _ _ _ (instructionEvents_backlight_bit on' _)
      (instructionEvents_backlight_bit on' _)
  | DisplayShiftLeft => exact instructionEvents_backlight_bit on' _
  | DisplayShiftRight => exact instructionEvents_backlight_bit on' _
  | LoadCustomChars chars =>
    exact busWrites_append_forall _ _ _ (instructionEvents_backlight_bit on' _)
      (busWrites_flatMap_forall _ _
        (fun i => busWrites_flatMap_forall _ _ (fun j => dataEvents_backlight_bit on' _) _) _)

/-- C3, the claim refuted: on a bus sink whose first write fails, that write
does return an error, yet `WriteInstruction(0)` goes on to attempt all four of
its bus writes, three of them after the failing one, and ends in the state it
reaches when nothing fails (there is no error result to hand back). -/
theorem C3_counterexample :
    (Dev.failingFirst.Write 0x0C).1 = some BusError.writeFailed
    ∧ writesOf (WriteInstruction 0) { Dev := Dev.failingFirst, backlight := I2CBLOn }
        = [0x0C, 0x08, 0x0C, 0x08]
    ∧ ¬ (writesOf (WriteInstruction 0)
          { Dev := Dev.failingFirst, backlight := I2CBLOn }).length ≤ 1 := by
  decide

/-- C3, amended: whatever the bus sink reports, every public operation makes
the same calls as on a sink that never fails. For each transmitting method,
started in any state, and for `NewDisplay`, replacing the failure rule of the
sink by any other changes neither the events emitted (bus writes and sleeps, in
order) nor the backlight flag; the calls have no error result, so a failure of
the N-th write is not returned and the writes after the N-th are still made. -/
theorem C3_bus_failures_are_ignored (op : Op) (d : Display) (dev : Dev) (singleLine : Bool)
    (fails' : Nat → Bool) :
    eventsOf op.call { d with Dev := { d.Dev with fails := fails' } } = eventsOf op.call d
    ∧ (op.call.run { d with Dev := { d.Dev with fails := fails' } }).2.backlight
        = (op.call.run d).2.backlight
    ∧ (op.call.run { d with Dev := { d.Dev with fails := fails' } }).2.Dev.events
        = (op.call.run d).2.Dev.events
    ∧ (NewDisplay { dev with fails := fails' } singleLine).Dev.events
        = (NewDisplay dev singleLine).Dev.events
    ∧ (NewDisplay { dev with fails := fails' } singleLine).backlight
        = (NewDisplay dev singleLine).backlight := by
  refine ⟨?_, ?_, ?_, ?_, ?_⟩
  · rw [eventsOf_of_run (Op_run op _), eventsOf_of_run (Op_run op d)]
  · rw [Op_run, Op_run]; rfl
  · rw [Op_run, Op_run]; rfl
  · rw [NewDisplay_eq, NewDisplay_eq]
  · rw [NewDisplay_eq, NewDisplay_eq]

/-- C4: `SetBacklight(on)` adds nothing to the log, so it makes no bus write,
for either value of `on`. After it, every byte handed to the bus by any
sequence of transmitting calls (`WriteInstruction`, `WriteData`, `Print`,
`Goto`, `Clear`, `DisplayShiftLeft`, `DisplayShiftRight`, `LoadCustomChars`,
any arguments, none of them `SetBacklight`) has bit `0x08` clear when `on` is
false and set when `on` is true; those calls only append to the log. -/
theorem C4_backlight_toggle (on' : Bool) (d : Display) (ops : List Op) :
    ((SetBacklight on').run d).2.Dev = d.Dev
    ∧ writesOf (SetBacklight on') d = []
    ∧ ((Op.callAll ops).run ((SetBacklight on').run d).2).2.Dev.events
        = d.Dev.events ++ eventsOf (Op.callAll ops) ((SetBacklight on').run d).2
    ∧ ∀ w ∈ writesOf (Op.callAll ops) ((SetBacklight on').run d).2,
        w &&& 0x08 = if on' then 0x08 else 0 := by
  have hd1 : ((SetBacklight on').run d).2 = { d with backlight := backlightByte on' } :=
    SetBacklight_state on' d
  refine ⟨?_, ?_, ?_, ?_⟩
  · rw [hd1]
  · simp [writesOf, eventsOf, hd1, busWrites]
  · rw [eventsOf_of_run (callAll_run ops _), callAll_run, logged_events, hd1]
  · rw [writesOf_of_run (callAll_run ops _), hd1]
    exact busWrites_flatMap_forall _ _ (Op_events_backlight_bit on') ops

theorem newDisplayWrites_eq (dev : Dev) (singleLine : Bool) :
    newDisplayWrites dev singleLine = busWrites (bringUpEvents I2CBLOn singleLine) := by
  simp [newDisplayWrites, NewDisplay_eq]

theorem newDisplayWrites_single (dev : Dev) :
    newDisplayWrites dev true
      = [0x0C, 0x08, 0x3C, 0x38, 0x0C, 0x08, 0x3C, 0x38, 0x0C, 0x08, 0x3C, 0x38,
         0x0C, 0x08, 0x2C, 0x28, 0x2C, 0x28, 0x0C, 0x08, 0x0C, 0x08, 0xCC, 0xC8,
         0x0C, 0x08, 0x1C, 0x18, 0x0C, 0x08, 0x6C, 0x68] := by
  rw [newDisplayWrites_eq]; decide

theorem newDisplayWrites_multi (dev : Dev) :
    newDisplayWrites dev false
      = [0x0C, 0x08, 0x3C, 0x38, 0x0C, 0x08, 0x3C, 0x38, 0x0C, 0x08, 0x3C, 0x38,
         0x0C, 0x08, 0x2C, 0x28, 0x2C, 0x28, 0x8C, 0x88, 0x0C, 0x08, 0xCC, 0xC8,
         0x0C, 0x08, 0x1C, 0x18, 0x0C, 0x08, 0x6C, 0x68] := by
  rw [newDisplayWrites_eq]; decide

/-- The bus writes of `WriteInstruction(cmd)` on a handle with the backlight on. -/
theorem writesOf_WriteInstruction_on (cmd : Nat) (dev : Dev) :
    writesOf (WriteInstruction cmd) { Dev := dev, backlight := I2CBLOn }
      = busWrites (instructionEvents I2CBLOn cmd) :=
  writesOf_of_run (WriteInstruction_run cmd _)

/-- C5: the bus writes of `NewDisplay(dev, true)` and `NewDisplay(dev, false)`
have the same length, 32, and agree at every position other than 18 and 19.
Positions 16 to 19 are the transmission of the function-set instruction that
carries the line-count flag, 18 and 19 being its low-nibble cycle: there the
single-line run writes `0x0C`, `0x08` (bus bit `0x80` clear) and the multi-line
run writes the same bytes with bus bit `0x80` set, `0x8C`, `0x88`. -/
theorem C5_NewDisplay_differs_in_line_flag_only (dev : Dev) :
    (newDisplayWrites dev true).length = 32
    ∧ (newDisplayWrites dev false).length = 32
    ∧ (∀ i : Nat, i ≠ 18 → i ≠ 19 →
        (newDisplayWrites dev true)[i]? = (newDisplayWrites dev false)[i]?)
    ∧ ((newDisplayWrites dev true).drop 16).take 4
        = writesOf (WriteInstruction InstructionFunctionSet)
            { Dev := dev, backlight := I2CBLOn }
    ∧ ((newDisplayWrites dev false).drop 16).take 4
        = writesOf (WriteInstruction (InstructionFunctionSet ||| InstructionFunctionSetNNLines))
            { Dev := dev, backlight := I2CBLOn }
    ∧ ((newDisplayWrites dev true).drop 18).take 2 = [0x0C, 0x08]
    ∧ ((newDisplayWrites dev false).drop 18).take 2 = [0x8C, 0x88]
    ∧ ((newDisplayWrites dev false).drop 18).take 2
        = (((newDisplayWrites dev true).drop 18).take 2).map (fun w => w ||| 0x80)
    ∧ (∀ w ∈ ((newDisplayWrites dev true).drop 18).take 2, w &&& 0x80 = 0)
    ∧ (∀ w ∈ ((newDisplayWrites dev false).drop 18).take 2, w &&& 0x80 = 0x80) := by
  rw [newDisplayWrites_single, newDisplayWrites_multi, writesOf_WriteInstruction_on,
    writesOf_WriteInstruction_on]
  refine ⟨rfl, rfl, ?_, by decide, by decide, rfl, rfl, rfl, by decide, by decide⟩
  intro i h18 h19
  by_cases hi : i < 32
  · interval_cases i <;> first | rfl | exact absurd rfl h18 | exact absurd rfl h19
  · rw [List.getElem?_eq_none (by simp; omega), List.getElem?_eq_none (by simp; omega)]

/-- C6, the claim refuted: on a fresh bus the first four bus writes of
`NewDisplay` are `0x0C, 0x08, 0x3C, 0x38`, which is not the transmission of
instruction `0x30` (`0x3C, 0x38, 0x0C, 0x08`), and writes 12 to 15 are
`0x0C, 0x08, 0x2C, 0x28`, which is not the transmission of instruction `0x20`
(`0x2C, 0x28, 0x0C, 0x08`). -/
theorem C6_counterexample :
    (newDisplayWrites Dev.fresh true).take 4 = [0x0C, 0x08, 0x3C, 0x38]
    ∧ writesOf (WriteInstruction (InstructionFunctionSet ||| InstructionFunctionSetDL8Bit))
        { Dev := Dev.fresh, backlight := I2CBLOn } = [0x3C, 0x38, 0x0C, 0x08]
    ∧ (newDisplayWrites Dev.fresh true).take 4
        ≠ writesOf (WriteInstruction (InstructionFunctionSet ||| InstructionFunctionSetDL8Bit))
            { Dev := Dev.fresh, backlight := I2CBLOn }
    ∧ ((newDisplayWrites Dev.fresh true).drop 12).take 4 = [0x0C, 0x08, 0x2C, 0x28]
    ∧ writesOf (WriteInstruction InstructionFunctionSet)
        { Dev := Dev.fresh, backlight := I2CBLOn } = [0x2C, 0x28, 0x0C, 0x08]
    ∧ ((newDisplayWrites Dev.fresh true).drop 12).take 4
        ≠ writesOf (WriteInstruction InstructionFunctionSet)
            { Dev := Dev.fresh, backlight := I2CBLOn } := by
  decide

/-- C6, amended: for either value of `singleLine`, the first three instructions
`NewDisplay` transmits are each the byte `0x03` and the fourth is the byte
`0x02`. The first sixteen bus writes are those four transmissions; each is a
high-nibble cycle with data nibble 0 followed by a low-nibble cycle whose data
lines (bus bits `0xF0`) carry `0x30`, function-set with the 8-bit flag, in the
first three, and `0x20`, function-set with that flag clear, in the fourth. -/
theorem C6_NewDisplay_first_four_instructions (dev : Dev) (singleLine : Bool) :
    (newDisplayWrites dev singleLine).take 16
      = writesOf (WriteInstruction 0x03) { Dev := dev, backlight := I2CBLOn }
        ++ writesOf (WriteInstruction 0x03) { Dev := dev, backlight := I2CBLOn }
        ++ writesOf (WriteInstruction 0x03) { Dev := dev, backlight := I2CBLOn }
        ++ writesOf (WriteInstruction 0x02) { Dev := dev, backlight := I2CBLOn }
    ∧ writesOf (WriteInstruction 0x03) { Dev := dev, backlight := I2CBLOn }
        = [0x0C, 0x08, 0x3C, 0x38]
    ∧ writesOf (WriteInstruction 0x02) { Dev := dev, backlight := I2CBLOn }
        = [0x0C, 0x08, 0x2C, 0x28]
    ∧ (writesOf (WriteInstruction 0x03) { Dev := dev, backlight := I2CBLOn }).map
          (fun w => w &&& lowerMask)
        = [0, 0, InstructionFunctionSet ||| InstructionFunctionSetDL8Bit,
            InstructionFunctionSet ||| InstructionFunctionSetDL8Bit]
    ∧ (writesOf (WriteInstruction 0x02) { Dev := dev, backlight := I2CBLOn }).map
          (fun w => w &&& lowerMask)
        = [0, 0, InstructionFunctionSet, InstructionFunctionSet] := by
  rw [writesOf_WriteInstruction_on, writesOf_WriteInstruction_on]
  cases singleLine
  · rw [newDisplayWrites_multi]; decide
  · rw [newDisplayWrites_single]; decide

/-- C7: for either value of `singleLine`, `NewDisplay` transmits exactly eight
instructions, 32 bus writes, each with the backlight bit `0x08` set and the
register-select bit `0x01` clear. The last four are, in order, function-set
with 4-bit data length and the line-count flag set exactly when `singleLine`
is false (`0x28` multi-line, `0x20` single-line), display on/off control with
display on, cursor off, blink off (`0x0C`), clear-display (`0x01`) and
entry-mode-set with increment and no shift (`0x06`); the log of bus writes
ends with the entry-mode-set transmission. -/
theorem C7_NewDisplay_eight_instructions (dev : Dev) (singleLine : Bool) :
    newDisplayWrites dev singleLine
      = writesOf (WriteInstruction 0x03) { Dev := dev, backlight := I2CBLOn }
        ++ writesOf (WriteInstruction 0x03) { Dev := dev, backlight := I2CBLOn }
        ++ writesOf (WriteInstruction 0x03) { Dev := dev, backlight := I2CBLOn }
        ++ writesOf (WriteInstruction 0x02) { Dev := dev, backlight := I2CBLOn }
        ++ writesOf (WriteInstruction (if singleLine then 0x20 else 0x28))
            { Dev := dev, backlight := I2CBLOn }
        ++ writesOf (WriteInstruction 0x0C) { Dev := dev, backlight := I2CBLOn }
        ++ writesOf (WriteInstruction 0x01) { Dev := dev, backlight := I2CBLOn }
        ++ writesOf (WriteInstruction 0x06) { Dev := dev, backlight := I2CBLOn }
    ∧ (newDisplayWrites dev singleLine).length = 32
    ∧ (∀ w ∈ newDisplayWrites dev singleLine, w &&& 0x08 = 0x08 ∧ w &&& 0x01 = 0)
    ∧ busWrites (NewDisplay dev singleLine).Dev.events
        = busWrites dev.events ++ newDisplayWrites dev singleLine
    ∧ (if singleLine then 0x20 else 0x28)
        = (InstructionFunctionSet ||| if singleLine then 0 else InstructionFunctionSetNNLines)
    ∧ (if singleLine then 0x20 else 0x28) &&& InstructionFunctionSetDL8Bit = 0
    ∧ 0x0C = (InstructionDisplayOnOffControl ||| InstructionDisplayOnOffControlDisplayOn)
    ∧ 0x0C &&& InstructionDisplayOnOffControlCursorOn = 0
    ∧ 0x0C &&& InstructionDisplayOnOffControlBlinkingOn = 0
    ∧ 0x01 = InstructionClearDisplay
    ∧ 0x06 = (InstructionEntryModeSet ||| InstructionEntryModeSetIncrement) := by
  have hlog : busWrites (NewDisplay dev singleLine).Dev.events
      = busWrites dev.events ++ newDisplayWrites dev singleLine := by
    rw [newDisplayWrites_eq, NewDisplay_eq, busWrites_append]
  refine ⟨?_, ?_, ?_, hlog, ?_⟩
  · simp only [writesOf_WriteInstruction_on]
    cases singleLine
    · rw [newDisplayWrites_multi]; decide
    · rw [newDisplayWrites_single]; decide
  · cases singleLine
    · rw [newDisplayWrites_multi]; rfl
    · rw [newDisplayWrites_single]; rfl
  · cases singleLine
    · rw [newDisplayWrites_multi]; decide
    · rw [newDisplayWrites_single]; decide
  · cases singleLine <;> decide

theorem land_one_eq_one_of_testBit {w : Nat} (h : w.testBit 0 = true) : w &&& 1 = 1 := by
  rw [Nat.and_one_is_mod]
  simpa [Nat.testBit_zero] using h

/-- Every bus write of a data transmission has the register-select bit set,
whatever the backlight byte. -/
theorem dataEvents_register_select (bl cmd : Nat) :
    ∀ w ∈ busWrites (dataEvents bl cmd), w &&& I2CRSOn = I2CRSOn := by
  intro w hw
  simp only [dataEvents, pulseEvents, busWrites, List.cons_append, List.nil_append,
    List.mem_cons, List.mem_singleton, List.not_mem_nil, or_false] at hw
  apply land_one_eq_one_of_testBit
  rcases hw with rfl | rfl | rfl | rfl <;>
    simp [Nat.testBit_or, Nat.testBit_and, andNot, I2CRSOn, I2CENOn]

theorem busWrites_instructionEvents_length (bl cmd : Nat) :
    (busWrites (instructionEvents bl cmd)).length = 4 := rfl

theorem busWrites_dataEvents_length (bl cmd : Nat) :
    (busWrites (dataEvents bl cmd)).length = 4 := rfl

theorem busWrites_flatMap_length {α : Type} (n : Nat) (f : α → List Event)
    (hf : ∀ x, (busWrites (f x)).length = n) (l : List α) :
    (busWrites (l.flatMap f)).length = n * l.length := by
  induction l with
  | nil => rfl
  | cons x xs ih =>
    rw [List.flatMap_cons, busWrites_append, List.length_append, hf, ih, List.length_cons,
      Nat.mul_succ, Nat.add_comm]

set_option maxRecDepth 100000 in
theorem finRange_grid :
    List.finRange 64 = (List.finRange 8).flatMap (fun i : Fin 8 =>
      (List.finRange 8).map (fun j : Fin 8 => (⟨8 * i.val + j.val, by omega⟩ : Fin 64))) := by
  decide

theorem flatMap_finRange_grid {β : Type} (g : Fin 8 → Fin 8 → List β) :
    ((List.finRange 8).flatMap fun i => (List.finRange 8).flatMap fun j => g i j)
      = (List.finRange 64).flatMap
          (fun k => g ⟨k.val / 8, by omega⟩ ⟨k.val % 8, by omega⟩) := by
  rw [finRange_grid, List.flatMap_assoc]
  congr 1
  funext i
  rw [List.flatMap_map]
  congr 1
  funext j
  congr 2 <;> (apply Fin.ext; simp; omega)

theorem col_facts : ∀ col < 0x40,
    (col + 0b01000000) % 256 = 0x40 + col ∧ 0x80 ||| (0x40 + col) = 0xC0 ||| col := by
  decide

/-- C8: for every column `col < 0x40` and every state, `Goto(0, col)` does
exactly what `WriteInstruction(0x80 | col)` does and `Goto(1, col)` exactly
what `WriteInstruction(0x80 | (0x40 + col))` does, where
`0x80 | (0x40 + col) = 0xC0 | col`; each is one instruction transmission, four
bus writes. `Goto(1, 5)` transmits `0xC5` and `Goto(0, 5)` transmits `0x85`. -/
theorem C8_Goto_two_rows (col : Nat) (d : Display) (hcol : col < 0x40) :
    (Goto 0 col).run d = (WriteInstruction (0x80 ||| col)).run d
    ∧ (Goto 1 col).run d = (WriteInstruction (0x80 ||| (0x40 + col))).run d
    ∧ 0x80 ||| (0x40 + col) = 0xC0 ||| col
    ∧ (writesOf (Goto 0 col) d).length = 4
    ∧ (writesOf (Goto 1 col) d).length = 4
    ∧ (Goto 1 5).run d = (WriteInstruction 0xC5).run d
    ∧ (Goto 0 5).run d = (WriteInstruction 0x85).run d := by
  have hc := col_facts col hcol
  have h5 := col_facts 5 (by decide)
  refine ⟨?_, ?_, hc.2, ?_, ?_, ?_, ?_⟩
  · rw [Goto_run, WriteInstruction_run]; rfl
  · rw [Goto_run, WriteInstruction_run, if_pos rfl, hc.1]; rfl
  · rw [writesOf_of_run (Goto_run 0 col d)]; rfl
  · rw [writesOf_of_run (Goto_run 1 col d)]; rfl
  · rw [Goto_run, WriteInstruction_run]; rfl
  · rw [Goto_run, WriteInstruction_run]; rfl

/-- C8 at `col = 5` on a fresh bus with the backlight on: `Goto(1, 5)` is the
transmission of `0xC5` and `Goto(0, 5)` that of `0x85`. -/
theorem C8_Goto_two_rows_witness :
    5 < 0x40
    ∧ (Goto 1 5).run { Dev := Dev.fresh, backlight := I2CBLOn }
        = (WriteInstruction 0xC5).run { Dev := Dev.fresh, backlight := I2CBLOn }
    ∧ (Goto 0 5).run { Dev := Dev.fresh, backlight := I2CBLOn }
        = (WriteInstruction 0x85).run { Dev := Dev.fresh, backlight := I2CBLOn }
    ∧ writesOf (Goto 1 5) { Dev := Dev.fresh, backlight := I2CBLOn }
        = [0xCC, 0xC8, 0x5C, 0x58]
    ∧ writesOf (Goto 0 5) { Dev := Dev.fresh, backlight := I2CBLOn }
        = [0x8C, 0x88, 0x5C, 0x58] :=
  ⟨by decide,
   (C8_Goto_two_rows 5 { Dev := Dev.fresh, backlight := I2CBLOn } (by decide)).2.2.2.2.2.1,
   (C8_Goto_two_rows 5 { Dev := Dev.fresh, backlight := I2CBLOn } (by decide)).2.2.2.2.2.2,
   by decide, by decide⟩

/-- C9: for every glyph set `chars`, `LoadCustomChars(chars)` emits the events
of one instruction transmission, set-CGRAM-address with address 0 (`0x40`),
followed by the events of 64 data transmissions and nothing else, the `k`-th
of them (`k` from 0 to 63) carrying `chars[k / 8][k % 8]`; that is 260 bus
writes, appended to the log. -/
theorem C9_LoadCustomChars_order (chars : CustomChars) (d : Display) :
    eventsOf (LoadCustomChars chars) d
      = eventsOf (WriteInstruction 0x40) d
        ++ (List.finRange 64).flatMap (fun k =>
            eventsOf (WriteData (chars ⟨k.val / 8, by omega⟩ ⟨k.val % 8, by omega⟩)) d)
    ∧ InstructionSetCGRAMAddress ||| 0 = 0x40
    ∧ ((LoadCustomChars chars).run d).2.Dev.events
        = d.Dev.events ++ eventsOf (LoadCustomChars chars) d
    ∧ (writesOf (WriteInstruction 0x40) d).length = 4
    ∧ (∀ b : Nat, (writesOf (WriteData b) d).length = 4)
    ∧ (writesOf (LoadCustomChars chars) d).length = 260 := by
  have hI : eventsOf (WriteInstruction 0x40) d = instructionEvents d.backlight 0x40 :=
    eventsOf_of_run (WriteInstruction_run _ d)
  have hD : ∀ b : Nat, eventsOf (WriteData b) d = dataEvents d.backlight b :=
    fun b => eventsOf_of_run (WriteData_run b d)
  have hL := eventsOf_of_run (LoadCustomChars_run chars d)
  refine ⟨?_, rfl, ?_, ?_, ?_, ?_⟩
  · rw [hL, hI]
    simp only [hD]
    rw [flatMap_finRange_grid (fun i j => dataEvents d.backlight (chars i j))]
    rfl
  · rw [hL, LoadCustomChars_run, logged_events]
  · rw [writesOf, hI]; rfl
  · intro b; rw [writesOf, hD]; rfl
  · rw [writesOf, hL, busWrites_append, List.length_append,
      busWrites_flatMap_length 32 _ (fun i => ?_), List.length_finRange]
    · rfl
    · rw [busWrites_flatMap_length 4 _ (fun j => busWrites_dataEvents_length _ _),
        List.length_finRange]

/-- C10: for every text `s`, `Print(s)` emits the events of one data
transmission per code point of `s`, in order, and nothing else, the one for
code point `c` being `WriteData` of `c` reduced to its low eight bits (`c`
itself when `c < 256`); that is four bus writes per code point, each with the
register-select bit set, appended to the log. The empty text emits nothing. -/
theorem C10_Print_per_code_point (s : String) (d : Display) :
    eventsOf (Print s) d
      = s.toList.flatMap (fun c => eventsOf (WriteData (c.toNat % 256)) d)
    ∧ ((Print s).run d).2.Dev.events = d.Dev.events ++ eventsOf (Print s) d
    ∧ (writesOf (Print s) d).length = 4 * s.length
    ∧ (∀ w ∈ writesOf (Print s) d, w &&& 0x01 = 0x01)
    ∧ (∀ c ∈ s.toList, c.toNat < 256 → c.toNat % 256 = c.toNat)
    ∧ eventsOf (Print "") d = [] := by
  have hD : ∀ b : Nat, eventsOf (WriteData b) d = dataEvents d.backlight b :=
    fun b => eventsOf_of_run (WriteData_run b d)
  have hP := eventsOf_of_run (Print_run s d)
  refine ⟨?_, ?_, ?_, ?_, ?_, ?_⟩
  · rw [hP]; simp only [hD]
  · rw [hP, Print_run, logged_events]
  · rw [writesOf, hP, busWrites_flatMap_length 4 _ (fun c => busWrites_dataEvents_length _ _)]
    rfl
  · rw [writesOf, hP]
    exact busWrites_flatMap_forall _ _ (fun c => dataEvents_register_select _ _) _
  · intro c _ hc
    exact Nat.mod_eq_of_lt hc
  · rw [eventsOf_of_run (Print_run "" d)]; rfl

theorem instructionEvents_shape (bl cmd : Nat) :
    instructionEvents bl cmd
      = (busWrites (instructionEvents bl cmd)).flatMap
          (fun w => [Event.write w, Event.sleep (500 * Microsecond)]) := rfl

theorem dataEvents_shape (bl cmd : Nat) :
    dataEvents bl cmd
      = (busWrites (dataEvents bl cmd)).flatMap
          (fun w => [Event.write w, Event.sleep (500 * Microsecond)]) := rfl

theorem eventsOf_WriteInstruction (cmd : Nat) (d : Display) :
    eventsOf (WriteInstruction cmd) d = instructionEvents d.backlight cmd :=
  eventsOf_of_run (WriteInstruction_run cmd d)

theorem eventsOf_WriteData (cmd : Nat) (d : Display) :
    eventsOf (WriteData cmd) d = dataEvents d.backlight cmd :=
  eventsOf_of_run (WriteData_run cmd d)

/-- C11: in every state, `Clear()` emits exactly the events of
`WriteInstruction(InstructionClearDisplay = 0x01)` followed by the events of
`WriteInstruction(InstructionReturnHome = 0x02)` and nothing else, appended to
the log: eight bus writes, each followed by its 500µs settle delay, so `Clear`
puts no delay of its own between or after the two instructions. -/
theorem C11_Clear_two_instructions (d : Display) :
    eventsOf Clear d
      = eventsOf (WriteInstruction 0x01) d ++ eventsOf (WriteInstruction 0x02) d
    ∧ InstructionClearDisplay = 0x01
    ∧ InstructionReturnHome = 0x02
    ∧ (Clear.run d).2.Dev.events = d.Dev.events ++ eventsOf Clear d
    ∧ (writesOf Clear d).length = 8
    ∧ eventsOf Clear d
        = (writesOf Clear d).flatMap (fun w => [Event.write w, Event.sleep (500 * Microsecond)])
    ∧ delaysBefore (eventsOf Clear d)
        = [0, 500 * Microsecond, 500 * Microsecond, 500 * Microsecond, 500 * Microsecond,
           500 * Microsecond, 500 * Microsecond, 500 * Microsecond] := by
  have hC := eventsOf_of_run (Clear_run d)
  refine ⟨?_, rfl, rfl, ?_, ?_, ?_, ?_⟩
  · rw [hC, eventsOf_WriteInstruction, eventsOf_WriteInstruction]; rfl
  · rw [hC, Clear_run, logged_events]
  · rw [writesOf, hC]; rfl
  · rw [writesOf, hC]; rfl
  · rw [hC]; rfl

/-- C12: in every state, `DisplayShiftLeft()` does exactly what
`WriteInstruction(0x18)` does and `DisplayShiftRight()` exactly what
`WriteInstruction(0x1C)` does, one instruction of four bus writes each, where
`0x18` is the cursor-or-display-shift opcode `0x10` with the display-left
flags `0x08` and `0x1C` the same opcode with the display-right flags `0x0C`;
the two bytes differ in bit `0x04` only and both have bit `0x08` set. -/
theorem C12_DisplayShift_instructions (d : Display) :
    DisplayShiftLeft.run d = (WriteInstruction 0x18).run d
    ∧ DisplayShiftRight.run d = (WriteInstruction 0x1C).run d
    ∧ (writesOf DisplayShiftLeft d).length = 4
    ∧ (writesOf DisplayShiftRight d).length = 4
    ∧ InstructionCursorOrDisplayShift ||| InstructionCursorOrDisplayShiftDisplayLeft = 0x18
    ∧ InstructionCursorOrDisplayShift ||| InstructionCursorOrDisplayShiftDisplayRight = 0x1C
    ∧ InstructionCursorOrDisplayShift = 0x10
    ∧ InstructionCursorOrDisplayShiftDisplayLeft = 0x08
    ∧ InstructionCursorOrDisplayShiftDisplayRight = 0x0C
    ∧ 0x18 ^^^ 0x1C = 0x04
    ∧ 0x18 &&& 0x04 = 0
    ∧ 0x1C &&& 0x04 = 0x04
    ∧ 0x18 &&& 0x08 = 0x08
    ∧ 0x1C &&& 0x08 = 0x08 := by
  refine ⟨?_, ?_, ?_, ?_, rfl, rfl, rfl, rfl, rfl, by decide, by decide, by decide, by decide,
    by decide⟩
  · rw [DisplayShiftLeft_run, WriteInstruction_run]; rfl
  · rw [DisplayShiftRight_run, WriteInstruction_run]; rfl
  · rw [writesOf_of_run (DisplayShiftLeft_run d)]; rfl
  · rw [writesOf_of_run (DisplayShiftRight_run d)]; rfl

/-- C13: the handle `NewDisplay` returns has its backlight flag on (`0x08`)
for either value of `singleLine`, and no transmitting method changes the flag:
in every state and for all arguments, `WriteInstruction`, `WriteData`,
`Print`, `Goto`, `Clear`, `DisplayShiftLeft`, `DisplayShiftRight` and
`LoadCustomChars`, alone or in sequence, leave it equal to its value before
the call. `SetBacklight` is the call that sets it. -/
theorem C13_backlight_frame (dev : Dev) (singleLine : Bool) (op : Op) (ops : List Op)
    (d : Display) (on' : Bool) :
    (NewDisplay dev singleLine).backlight = I2CBLOn
    ∧ I2CBLOn = 0x08
    ∧ (op.call.run d).2.backlight = d.backlight
    ∧ ((Op.callAll ops).run d).2.backlight = d.backlight
    ∧ ((SetBacklight on').run d).2.backlight = (if on' then I2CBLOn else 0) := by
  refine ⟨?_, rfl, ?_, ?_, ?_⟩
  · rw [NewDisplay_eq]
  · rw [Op_run]; rfl
  · rw [callAll_run]; rfl
  · rw [SetBacklight_run]

theorem newDisplayEvents_eq (dev : Dev) (singleLine : Bool) :
    newDisplayEvents dev singleLine = bringUpEvents I2CBLOn singleLine := by
  simp [newDisplayEvents, NewDisplay_eq]

theorem delaysBefore_bringUpEvents (singleLine : Bool) :
    delaysBefore (bringUpEvents I2CBLOn singleLine)
      = [40000000, 500000, 500000, 500000, 5500000, 500000, 500000, 500000,
         100500000, 500000, 500000, 500000, 500000, 500000, 500000, 500000,
         500000, 500000, 500000, 500000, 500000, 500000, 500000, 500000,
         500000, 500000, 500000, 500000, 2030000, 500000, 500000, 500000] := by
  cases singleLine <;> decide

/-- C14: in the events `NewDisplay` emits, for either value of `singleLine`,
the delay before the first bus write is 40ms; the delay between the last bus
write of the first send (write 3) and the first of the second (write 4) is
5.5ms, at least 5ms; the delay between the last bus write of the second send
(write 7) and the first of the third (write 8) is 100.5ms, at least 100µs; and
the delay between the last bus write of clear-display (write 27) and the first
of entry-mode-set (write 28) is 2.03ms, at least 1.53ms. Writes 0 to 11 are the
three repeated sends, writes 24 to 27 clear-display, writes 28 to 31
entry-mode-set. -/
theorem C14_NewDisplay_delays (dev : Dev) (singleLine : Bool) :
    (delaysBefore (newDisplayEvents dev singleLine)).length = 32
    ∧ busWrites (newDisplayEvents dev singleLine) = newDisplayWrites dev singleLine
    ∧ (delaysBefore (newDisplayEvents dev singleLine))[0]? = some (40 * Millisecond)
    ∧ (delaysBefore (newDisplayEvents dev singleLine))[4]?
        = some (500 * Microsecond + 5 * Millisecond)
    ∧ (delaysBefore (newDisplayEvents dev singleLine))[8]?
        = some (500 * Microsecond + 100 * Millisecond)
    ∧ (delaysBefore (newDisplayEvents dev singleLine))[28]?
        = some (500 * Microsecond + 1530 * Microsecond)
    ∧ 5 * Millisecond ≤ 500 * Microsecond + 5 * Millisecond
    ∧ 100 * Microsecond ≤ 500 * Microsecond + 100 * Millisecond
    ∧ 1530 * Microsecond ≤ 500 * Microsecond + 1530 * Microsecond
    ∧ (newDisplayWrites dev singleLine).take 12
        = writesOf (WriteInstruction 0x03) { Dev := dev, backlight := I2CBLOn }
          ++ writesOf (WriteInstruction 0x03) { Dev := dev, backlight := I2CBLOn }
          ++ writesOf (WriteInstruction 0x03) { Dev := dev, backlight := I2CBLOn }
    ∧ (newDisplayWrites dev singleLine).drop 24
        = writesOf (WriteInstruction InstructionClearDisplay)
            { Dev := dev, backlight := I2CBLOn }
          ++ writesOf (WriteInstruction
              (InstructionEntryModeSet ||| InstructionEntryModeSetIncrement))
            { Dev := dev, backlight := I2CBLOn } := by
  have hw : busWrites (newDisplayEvents dev singleLine) = newDisplayWrites dev singleLine := rfl
  rw [newDisplayEvents_eq, delaysBefore_bringUpEvents]
  simp only [writesOf_WriteInstruction_on]
  refine ⟨rfl, ?_, by decide, by decide, by decide, by decide, by decide, by decide, by decide,
    ?_, ?_⟩
  · rw [← newDisplayEvents_eq dev singleLine]; exact hw
  · cases singleLine
    · rw [newDisplayWrites_multi]; decide
    · rw [newDisplayWrites_single]; decide
  · cases singleLine
    · rw [newDisplayWrites_multi]; decide
    · rw [newDisplayWrites_single]; decide

/-- C15, the code at `NewDisplay(dev, false)` on a fresh bus: between the
first and the second of the three repeated sends `NewDisplay` sleeps 5ms
(event 9 of its log), between the second and the third it sleeps 100ms
(event 18). The bus is idle for 5.5ms before write 4 and for 100.5ms before
write 8, so the second inter-send delay is the longer one. -/
theorem C15_inter_send_delays_increase :
    (newDisplayEvents Dev.fresh false)[9]? = some (Event.sleep (5 * Millisecond))
    ∧ (newDisplayEvents Dev.fresh false)[18]? = some (Event.sleep (100 * Millisecond))
    ∧ (newDisplayEvents Dev.fresh false).take 19
        = [Event.sleep (40 * Millisecond)]
          ++ eventsOf (WriteInstruction 0x03) { Dev := Dev.fresh, backlight := I2CBLOn }
          ++ [Event.sleep (5 * Millisecond)]
          ++ eventsOf (WriteInstruction 0x03) { Dev := Dev.fresh, backlight := I2CBLOn }
          ++ [Event.sleep (100 * Millisecond)]
    ∧ 5 * Millisecond < 100 * Millisecond
    ∧ (delaysBefore (newDisplayEvents Dev.fresh false))[4]? = some 5500000
    ∧ (delaysBefore (newDisplayEvents Dev.fresh false))[8]? = some 100500000
    ∧ ¬ (100500000 < 5500000) := by
  decide

set_option maxRecDepth 1000000 in
theorem enable_facts : ∀ x < 256, ∀ on' : Bool,
    ((x &&& lowerMask) ||| I2CENOn ||| backlightByte on') &&& I2CENOn = I2CENOn
    ∧ ((x &&& lowerMask) ||| backlightByte on') &&& I2CENOn = 0
    ∧ ((x &&& lowerMask) ||| backlightByte on') ||| I2CENOn
        = (x &&& lowerMask) ||| I2CENOn ||| backlightByte on'
    ∧ (((x &&& lowerMask) ||| I2CENOn ||| backlightByte on') ||| I2CRSOn) &&& I2CENOn = I2CENOn
    ∧ (((x &&& lowerMask) ||| backlightByte on') ||| I2CRSOn) &&& I2CENOn = 0
    ∧ (((x &&& lowerMask) ||| backlightByte on') ||| I2CRSOn) ||| I2CENOn
        = ((x &&& lowerMask) ||| I2CENOn ||| backlightByte on') ||| I2CRSOn
    ∧ ((x &&& lowerMask) ||| I2CENOn ||| backlightByte on') &&& I2CRWOn = 0
    ∧ ((x &&& lowerMask) ||| backlightByte on') &&& I2CRWOn = 0
    ∧ (((x &&& lowerMask) ||| I2CENOn ||| backlightByte on') ||| I2CRSOn) &&& I2CRWOn = 0
    ∧ (((x &&& lowerMask) ||| backlightByte on') ||| I2CRSOn) &&& I2CRWOn = 0 := by
  decide

theorem SetBacklight_backlight (on' : Bool) (d : Display) :
    ((SetBacklight on').run d).2.backlight = backlightByte on' := by
  rw [SetBacklight_state]

/-- The events of one transmission, written out from its four bus writes. -/
theorem eventsOf_transmit (isData : Bool) (b : Nat) (d : Display) :
    eventsOf (transmit isData b) d
      = (writesOf (transmit isData b) d).flatMap
          (fun w => [Event.write w, Event.sleep (500 * Microsecond)]) := by
  cases isData
  · show eventsOf (WriteInstruction b) d = (busWrites (eventsOf (WriteInstruction b) d)).flatMap _
    rw [eventsOf_WriteInstruction]; exact instructionEvents_shape _ _
  · show eventsOf (WriteData b) d = (busWrites (eventsOf (WriteData b) d)).flatMap _
    rw [eventsOf_WriteData]; exact dataEvents_shape _ _

/-- The four bus writes of one transmission after `SetBacklight(on)`. -/
theorem writesOf_transmit (isData on' : Bool) (b : Nat) (d : Display) :
    writesOf (transmit isData b) ((SetBacklight on').run d).2
      = if isData then
          [((b &&& lowerMask) ||| I2CENOn ||| backlightByte on') ||| I2CRSOn,
           ((b &&& lowerMask) ||| backlightByte on') ||| I2CRSOn,
           ((((b <<< 4) % 256) &&& lowerMask) ||| I2CENOn ||| backlightByte on') ||| I2CRSOn,
           ((((b <<< 4) % 256) &&& lowerMask) ||| backlightByte on') ||| I2CRSOn]
        else
          [(b &&& lowerMask) ||| I2CENOn ||| backlightByte on',
           (b &&& lowerMask) ||| backlightByte on',
           (((b <<< 4) % 256) &&& lowerMask) ||| I2CENOn ||| backlightByte on',
           (((b <<< 4) % 256) &&& lowerMask) ||| backlightByte on'] := by
  cases isData
  · show writesOf (WriteInstruction b) _ = _
    rw [writesOf_of_run (WriteInstruction_run b _), SetBacklight_backlight,
      busWrites_instructionEvents]
    rfl
  · show writesOf (WriteData b) _ = _
    rw [writesOf_of_run (WriteData_run b _), SetBacklight_backlight, busWrites_dataEvents]
    rfl

/-- C16: for every byte `b`, either backlight state and either kind of
transmission, the events of `WriteInstruction(b)` and of `WriteData(b)` are
exactly write, 500µs delay, write, 500µs delay, write, 500µs delay, write,
500µs delay. In each nibble cycle the first write has the enable bit `0x04`
set and the second is the same byte with the enable bit clear. -/
theorem C16_transmission_events (b : Nat) (on' isData : Bool) (d : Display) :
    transmit false b = WriteInstruction b
    ∧ transmit true b = WriteData b
    ∧ ∃ w0 w1 w2 w3 : Nat,
        eventsOf (transmit isData b) ((SetBacklight on').run d).2
          = [Event.write w0, Event.sleep (500 * Microsecond),
             Event.write w1, Event.sleep (500 * Microsecond),
             Event.write w2, Event.sleep (500 * Microsecond),
             Event.write w3, Event.sleep (500 * Microsecond)]
        ∧ w0 &&& 0x04 = 0x04 ∧ w1 &&& 0x04 = 0 ∧ w1 ||| 0x04 = w0
        ∧ w2 &&& 0x04 = 0x04 ∧ w3 &&& 0x04 = 0 ∧ w3 ||| 0x04 = w2 := by
  refine ⟨rfl, rfl, ?_⟩
  have h1 := enable_facts (b % 256) (Nat.mod_lt _ (by decide)) on'
  have h2 := enable_facts ((b <<< 4) % 256) (Nat.mod_lt _ (by decide)) on'
  rw [← land_lowerMask_mod] at h1
  rw [eventsOf_transmit, writesOf_transmit]
  cases isData
  · exact ⟨_, _, _, _, rfl, h1.1, h1.2.1, h1.2.2.1, h2.1, h2.2.1, h2.2.2.1⟩
  · exact ⟨_, _, _, _, rfl, h1.2.2.2.1, h1.2.2.2.2.1, h1.2.2.2.2.2.1,
      h2.2.2.2.1, h2.2.2.2.2.1, h2.2.2.2.2.2.1⟩

set_option maxRecDepth 1000000 in
theorem decode_facts : ∀ b < 256, ∀ on' : Bool,
    (((b &&& lowerMask) ||| I2CENOn ||| backlightByte on') &&& 0xF0)
        ||| (((((b <<< 4) % 256) &&& lowerMask) ||| I2CENOn ||| backlightByte on') >>> 4) = b
    ∧ (((b &&& lowerMask) ||| backlightByte on') &&& 0xF0)
        ||| (((((b <<< 4) % 256) &&& lowerMask) ||| backlightByte on') >>> 4) = b
    ∧ ((((b &&& lowerMask) ||| I2CENOn ||| backlightByte on') ||| I2CRSOn) &&& 0xF0)
        ||| ((((((b <<< 4) % 256) &&& lowerMask) ||| I2CENOn ||| backlightByte on')
              ||| I2CRSOn) >>> 4) = b
    ∧ ((((b &&& lowerMask) ||| backlightByte on') ||| I2CRSOn) &&& 0xF0)
        ||| ((((((b <<< 4) % 256) &&& lowerMask) ||| backlightByte on') ||| I2CRSOn) >>> 4)
          = b := by
  decide

/-- What the four bus writes of one transmission of a byte tell: the byte, the
kind of transmission and the backlight flag. -/
theorem transmit_decodes (b : Nat) (on' isData : Bool) (d : Display) (hb : b < 256) :
    ∃ w0 w1 w2 w3 : Nat,
      writesOf (transmit isData b) ((SetBacklight on').run d).2 = [w0, w1, w2, w3]
      ∧ (w0 &&& 0xF0) ||| (w2 >>> 4) = b
      ∧ (w1 &&& 0xF0) ||| (w3 >>> 4) = b
      ∧ ∀ w ∈ [w0, w1, w2, w3],
          w &&& 0x01 = (if isData then 0x01 else 0) ∧ w &&& 0x08 = (if on' then 0x08 else 0) := by
  have hd := decode_facts b hb on'
  have h1 := nibble_facts (b % 256) (Nat.mod_lt _ (by decide)) on'
  have h2 := nibble_facts ((b <<< 4) % 256) (Nat.mod_lt _ (by decide)) on'
  rw [← land_lowerMask_mod] at h1
  rw [writesOf_transmit]
  cases isData
  · refine ⟨_, _, _, _, rfl, hd.1, hd.2.1, ?_⟩
    intro w hw
    simp only [List.mem_cons, List.mem_singleton, List.not_mem_nil, or_false] at hw
    rcases hw with rfl | rfl | rfl | rfl
    · exact ⟨h1.2.2.1, h1.2.2.2.2.2.2.2.2.1⟩
    · exact ⟨h1.2.2.2.1, h1.2.2.2.2.2.2.2.2.2.1⟩
    · exact ⟨h2.2.2.1, h2.2.2.2.2.2.2.2.2.1⟩
    · exact ⟨h2.2.2.2.1, h2.2.2.2.2.2.2.2.2.2.1⟩
  · refine ⟨_, _, _, _, rfl, hd.2.2.1, hd.2.2.2, ?_⟩
    intro w hw
    simp only [List.mem_cons, List.mem_singleton, List.not_mem_nil, or_false] at hw
    rcases hw with rfl | rfl | rfl | rfl
    · exact ⟨h1.2.2.2.2.2.2.1, h1.2.2.2.2.2.2.2.2.2.2.1⟩
    · exact ⟨h1.2.2.2.2.2.2.2.1, h1.2.2.2.2.2.2.2.2.2.2.2⟩
    · exact ⟨h2.2.2.2.2.2.2.1, h2.2.2.2.2.2.2.2.2.2.2.1⟩
    · exact ⟨h2.2.2.2.2.2.2.2.1, h2.2.2.2.2.2.2.2.2.2.2.2⟩

/-- C17: the nibble encoding is lossless. For every byte `b`, either backlight
state and either kind of transmission, the four bus writes `w0, w1, w2, w3`
satisfy `(w0 & 0xF0) | (w2 >> 4) = b` and `(w1 & 0xF0) | (w3 >> 4) = b`, bit 0
of each is 1 exactly for `WriteData`, and bit 3 of each is the backlight
flag. Hence a transmission of a byte `b'` that emits the same four bytes has
the same payload, the same kind and the same backlight state. -/
theorem C17_nibble_encoding_lossless (b : Nat) (on' isData : Bool) (d : Display)
    (hb : b < 256) :
    (∃ w0 w1 w2 w3 : Nat,
      writesOf (transmit isData b) ((SetBacklight on').run d).2 = [w0, w1, w2, w3]
      ∧ (w0 &&& 0xF0) ||| (w2 >>> 4) = b
      ∧ (w1 &&& 0xF0) ||| (w3 >>> 4) = b
      ∧ ∀ w ∈ [w0, w1, w2, w3],
          w &&& 0x01 = (if isData then 0x01 else 0) ∧ w &&& 0x08 = (if on' then 0x08 else 0))
    ∧ ∀ (b' : Nat) (on'' isData' : Bool) (d' : Display), b' < 256 →
        writesOf (transmit isData b) ((SetBacklight on').run d).2
          = writesOf (transmit isData' b') ((SetBacklight on'').run d').2 →
        b = b' ∧ isData = isData' ∧ on' = on'' := by
  refine ⟨transmit_decodes b on' isData d hb, ?_⟩
  intro b' on'' isData' d' hb' heq
  obtain ⟨w0, w1, w2, w3, hw, hdec, _, hbits⟩ := transmit_decodes b on' isData d hb
  obtain ⟨v0, v1, v2, v3, hv, hdec', _, hbits'⟩ := transmit_decodes b' on'' isData' d' hb'
  rw [hw, hv] at heq
  simp only [List.cons.injEq, and_true] at heq
  obtain ⟨e0, _, e2, _⟩ := heq
  have k := hbits w0 (List.mem_cons_self _ _)
  have k' := hbits' v0 (List.mem_cons_self _ _)
  rw [← e0] at k'
  refine ⟨?_, ?_, ?_⟩
  · rw [← hdec, ← hdec', e0, e2]
  · have h := k.1.symm.trans k'.1
    cases isData <;> cases isData' <;> simp_all
  · have h := k.2.symm.trans k'.2
    cases on' <;> cases on'' <;> simp_all

/-- C17 at `b = 0x35`, data transmission, backlight on, fresh bus: the four
bus writes decode to `0x35`, have bit 0 set and bit 3 set. -/
theorem C17_nibble_encoding_lossless_witness :
    0x35 < 256
    ∧ writesOf (transmit true 0x35)
        ((SetBacklight true).run { Dev := Dev.fresh, backlight := 0 }).2
        = [0x3D, 0x39, 0x5D, 0x59]
    ∧ ∃ w0 w1 w2 w3 : Nat,
      writesOf (transmit true 0x35)
        ((SetBacklight true).run { Dev := Dev.fresh, backlight := 0 }).2 = [w0, w1, w2, w3]
      ∧ (w0 &&& 0xF0) ||| (w2 >>> 4) = 0x35
      ∧ (w1 &&& 0xF0) ||| (w3 >>> 4) = 0x35
      ∧ ∀ w ∈ [w0, w1, w2, w3],
          w &&& 0x01 = (if true then 0x01 else 0) ∧ w &&& 0x08 = (if true then 0x08 else 0) :=
  ⟨by decide, by decide,
   (C17_nibble_encoding_lossless 0x35 true true { Dev := Dev.fresh, backlight := 0 }
      (by decide)).1⟩

/-- A property of every bus write of an instruction transmission and of every
bus write of a data transmission holds of every bus write of every call. -/
theorem Op_events_forall (P : Nat → Prop) (bl : Nat)
    (hI : ∀ cmd, ∀ w ∈ busWrites (instructionEvents bl cmd), P w)
    (hD : ∀ cmd, ∀ w ∈ busWrites (dataEvents bl cmd), P w) (op : Op) :
    ∀ w ∈ busWrites (op.events bl), P w := by
  cases op with
  | WriteInstruction cmd => exact hI cmd
  | WriteData cmd => exact hD cmd
  | Print s => exact busWrites_flatMap_forall _ _ (fun c => hD _) _
  | Goto row col => exact hI _
  | Clear => exact busWrites_append_forall _ _ _ (hI _) (hI _)
  | DisplayShiftLeft => exact hI _
  | DisplayShiftRight => exact hI _
  | LoadCustomChars chars =>
    exact busWrites_append_forall _ _ _ (hI _)
      (busWrites_flatMap_forall _ _
        (fun i => busWrites_flatMap_forall _ _ (fun j => hD _) _) _)

theorem instructionEvents_rw_bit (on' : Bool) (cmd : Nat) :
    ∀ w ∈ busWrites (instructionEvents (backlightByte on') cmd), w &&& I2CRWOn = 0 := by
  have h1 := enable_facts (cmd % 256) (Nat.mod_lt _ (by decide)) on'
  have h2 := enable_facts ((cmd <<< 4) % 256) (Nat.mod_lt _ (by decide)) on'
  rw [← land_lowerMask_mod] at h1
  rw [busWrites_instructionEvents]
  intro w hw
  simp only [List.mem_cons, List.mem_singleton, List.not_mem_nil, or_false] at hw
  rcases hw with rfl | rfl | rfl | rfl
  · exact h1.2.2.2.2.2.2.1
  · exact h1.2.2.2.2.2.2.2.1
  · exact h2.2.2.2.2.2.2.1
  · exact h2.2.2.2.2.2.2.2.1

theorem dataEvents_rw_bit (on' : Bool) (cmd : Nat) :
    ∀ w ∈ busWrites (dataEvents (backlightByte on') cmd), w &&& I2CRWOn = 0 := by
  have h1 := enable_facts (cmd % 256) (Nat.mod_lt _ (by decide)) on'
  have h2 := enable_facts ((cmd <<< 4) % 256) (Nat.mod_lt _ (by decide)) on'
  rw [← land_lowerMask_mod] at h1
  rw [busWrites_dataEvents]
  intro w hw
  simp only [List.mem_cons, List.mem_singleton, List.not_mem_nil, or_false] at hw
  rcases hw with rfl | rfl | rfl | rfl
  · exact h1.2.2.2.2.2.2.2.2.1
  · exact h1.2.2.2.2.2.2.2.2.2
  · exact h2.2.2.2.2.2.2.2.2.1
  · exact h2.2.2.2.2.2.2.2.2.2

set_option maxRecDepth 1000000 in
theorem goto_facts : ∀ col < 256,
    0x80 ||| col = 0x80 + col % 128
    ∧ 0x80 ||| (col + 0b01000000) % 256 = 0x80 + (col + 0x40) % 128
    ∧ (0x80 + col % 128) &&& 0x80 = 0x80
    ∧ (0x80 + (col + 0x40) % 128) &&& 0x80 = 0x80
    ∧ (0x80 + col % 128) &&& 0x7F = col % 128
    ∧ (0x80 + (col + 0x40) % 128) &&& 0x7F = (col + 0x40) % 128 := by
  decide

/-- C18: the read/write line is never asserted. In either backlight state,
every byte handed to the bus by any transmitting call (`WriteInstruction`,
`WriteData`, `Print`, `Goto`, `Clear`, `DisplayShiftLeft`, `DisplayShiftRight`,
`LoadCustomChars`, any arguments), alone or in sequence, and every byte handed
to it by `NewDisplay`, has bit `I2CRWOn = 0x02` clear. -/
theorem C18_read_write_line_clear (on' : Bool) (d : Display) (op : Op) (ops : List Op)
    (dev : Dev) (singleLine : Bool) :
    (∀ w ∈ writesOf op.call ((SetBacklight on').run d).2, w &&& I2CRWOn = 0)
    ∧ (∀ w ∈ writesOf (Op.callAll ops) ((SetBacklight on').run d).2, w &&& I2CRWOn = 0)
    ∧ (∀ w ∈ newDisplayWrites dev singleLine, w &&& I2CRWOn = 0)
    ∧ I2CRWOn = 0x02 := by
  have hop : ∀ o : Op, ∀ w ∈ busWrites (o.events (backlightByte on')), w &&& I2CRWOn = 0 :=
    Op_events_forall _ _ (instructionEvents_rw_bit on') (dataEvents_rw_bit on')
  refine ⟨?_, ?_, ?_, rfl⟩
  · rw [writesOf_of_run (Op_run op _), SetBacklight_backlight]
    exact hop op
  · rw [writesOf_of_run (callAll_run ops _), SetBacklight_backlight]
    exact busWrites_flatMap_forall _ _ hop ops
  · cases singleLine
    · rw [newDisplayWrites_multi]; decide
    · rw [newDisplayWrites_single]; decide

/-- C19: for every row other than 1 and every column, in every state,
`Goto(row, col)` does exactly what `Goto(0, col)` does, namely what
`WriteInstruction(0x80 | col)` does; so it emits the same bus writes. -/
theorem C19_Goto_rows_other_than_one (row col : Nat) (d : Display) (hrow : row ≠ 1) :
    (Goto row col).run d = (Goto 0 col).run d
    ∧ (Goto row col).run d = (WriteInstruction (0x80 ||| col)).run d
    ∧ writesOf (Goto row col) d = writesOf (Goto 0 col) d
    ∧ writesOf (Goto row col) d = writesOf (WriteInstruction (0x80 ||| col)) d := by
  have h0 : (Goto 0 col).run d = (WriteInstruction (0x80 ||| col)).run d := by
    rw [Goto_run, WriteInstruction_run]; rfl
  have hr : (Goto row col).run d = (WriteInstruction (0x80 ||| col)).run d := by
    rw [Goto_run, WriteInstruction_run, if_neg hrow]; rfl
  refine ⟨hr.trans h0.symm, hr, ?_, ?_⟩
  · simp only [writesOf, eventsOf, hr, h0]
  · simp only [writesOf, eventsOf, hr]

/-- C19 at rows 2, 3 and 255, column 5, on a fresh bus with the backlight on:
each emits the bus writes of `Goto(0, 5)`, the transmission of `0x85`. -/
theorem C19_Goto_rows_other_than_one_witness :
    (2 : Nat) ≠ 1
    ∧ writesOf (Goto 2 5) { Dev := Dev.fresh, backlight := I2CBLOn }
        = writesOf (Goto 0 5) { Dev := Dev.fresh, backlight := I2CBLOn }
    ∧ writesOf (Goto 3 5) { Dev := Dev.fresh, backlight := I2CBLOn }
        = writesOf (Goto 0 5) { Dev := Dev.fresh, backlight := I2CBLOn }
    ∧ writesOf (Goto 255 5) { Dev := Dev.fresh, backlight := I2CBLOn }
        = writesOf (Goto 0 5) { Dev := Dev.fresh, backlight := I2CBLOn }
    ∧ writesOf (Goto 0 5) { Dev := Dev.fresh, backlight := I2CBLOn }
        = [0x8C, 0x88, 0x5C, 0x58] :=
  ⟨by decide,
   (C19_Goto_rows_other_than_one 2 5 { Dev := Dev.fresh, backlight := I2CBLOn }
      (by decide)).2.2.1,
   (C19_Goto_rows_other_than_one 3 5 { Dev := Dev.fresh, backlight := I2CBLOn }
      (by decide)).2.2.1,
   (C19_Goto_rows_other_than_one 255 5 { Dev := Dev.fresh, backlight := I2CBLOn }
      (by decide)).2.2.1,
   by decide⟩

/-- C20: for every row and every column `col` in 0..255, also where
`col + 0x40` wraps modulo 256, `Goto(row, col)` does exactly what
`WriteInstruction(instr)` does for one byte `instr`, which has bit 7
(`InstructionSetDDRAMAddress`, `0x80`) set and low seven bits equal to
`(col + (0x40 if row = 1 else 0)) mod 128`. So `instr` is at least `0x80` and
is in none of the opcode classes below it (clear, home, entry-mode, display
control, shift, function-set, set-CGRAM-address, all below `0x80`). -/
theorem C20_Goto_opcode_class (row col : Nat) (d : Display) (hcol : col < 256) :
    ∃ instr : Nat,
      (Goto row col).run d = (WriteInstruction instr).run d
      ∧ instr = 0x80 + (col + (if row = 1 then 0x40 else 0)) % 128
      ∧ instr < 256
      ∧ instr &&& InstructionSetDDRAMAddress = InstructionSetDDRAMAddress
      ∧ instr &&& 0x7F = (col + (if row = 1 then 0x40 else 0)) % 128
      ∧ 0x80 ≤ instr
      ∧ InstructionSetCGRAMAddress ||| 0x3F < 0x80 := by
  have hg := goto_facts col hcol
  refine ⟨0x80 + (col + (if row = 1 then 0x40 else 0)) % 128, ?_, rfl, by omega, ?_, ?_,
    by omega, by decide⟩
  · rw [Goto_run, WriteInstruction_run]
    by_cases hrow : row = 1
    · rw [if_pos hrow, if_pos hrow]
      show _ = ((), d.logged (instructionEvents d.backlight (0x80 + (col + 0x40) % 128)))
      rw [← hg.2.1]; rfl
    · rw [if_neg hrow, if_neg hrow]
      show _ = ((), d.logged (instructionEvents d.backlight (0x80 + (col + 0) % 128)))
      rw [Nat.add_zero, ← hg.1]; rfl
  · by_cases hrow : row = 1
    · rw [if_pos hrow]; exact hg.2.2.2.1
    · rw [if_neg hrow]; exact hg.2.2.1
  · by_cases hrow : row = 1
    · rw [if_pos hrow]; exact hg.2.2.2.2.2
    · rw [if_neg hrow]; exact hg.2.2.2.2.1

/-- C20 at `row = 1`, `col = 200`, where `200 + 0x40` wraps to 8: on a fresh
bus with the backlight on `Goto(1, 200)` transmits `0x88`. -/
theorem C20_Goto_opcode_class_witness :
    200 < 256
    ∧ writesOf (Goto 1 200) { Dev := Dev.fresh, backlight := I2CBLOn }
        = writesOf (WriteInstruction 0x88) { Dev := Dev.fresh, backlight := I2CBLOn }
    ∧ ∃ instr : Nat,
      (Goto 1 200).run { Dev := Dev.fresh, backlight := I2CBLOn }
        = (WriteInstruction instr).run { Dev := Dev.fresh, backlight := I2CBLOn }
      ∧ instr = 0x80 + (200 + (if 1 = 1 then 0x40 else 0)) % 128
      ∧ instr < 256
      ∧ instr &&& InstructionSetDDRAMAddress = InstructionSetDDRAMAddress
      ∧ instr &&& 0x7F = (200 + (if 1 = 1 then 0x40 else 0)) % 128
      ∧ 0x80 ≤ instr
      ∧ InstructionSetCGRAMAddress ||| 0x3F < 0x80 :=
  ⟨by decide, by decide,
   C20_Goto_opcode_class 1 200 { Dev := Dev.fresh, backlight := I2CBLOn } (by decide)⟩

end Runs

end Character
